import Mathlib

/-!
Shallow embedding of the `utils::memory` arena allocator (`arena.h` / `arena.cc`
and `concurrent_arena.h` / `concurrent_arena.cc`).

Memory is modelled with `Nat` addresses.  A heap-allocation oracle is part of
the `Arena` state: `nextFresh` is the lowest address not yet handed out by the
underlying system allocator.  Every `new char[n]` / huge-page `mmap` returns a
fresh region starting at `nextFresh` and bumps `nextFresh` past it (rounded up
to `kAlignUnit`, reflecting that `operator new` and `mmap` return storage
aligned at least to `alignof(std::max_align_t)` resp. the page size).  This
models exactly the guarantees the C++ code relies on: distinct system
allocations are disjoint and suitably aligned.

The memory tracker and the logger are external collaborators with no influence
on the allocator state; they are omitted.  `port::MemMapping::kHugePageSupported`
is modelled as `true` (the POSIX build in `port_posix.h`); whether an individual
huge-page `mmap` succeeds is an oracle `Bool` passed to each call.
-/

namespace ArenaSpec

/-- Constant from `arena.h`: `static constexpr size_t kInlineSize = 2048`. -/
def kInlineSize : Nat := 2048

/-- Constant from `arena.h`: `static constexpr size_t kMinBlockSize = 4096`. -/
def kMinBlockSize : Nat := 4096

/-- Constant from `arena.h`: `static constexpr size_t kMaxBlockSize = 2u << 30`. -/
def kMaxBlockSize : Nat := 2 ^ 31

/-- Constant from `concurrent_arena.cc`: `kMaxShardBlockSize = 128 * 1024`. -/
def kMaxShardBlockSize : Nat := 128 * 1024

/-- Value of `sizeof(void*)` on the modelled (64-bit) platform. -/
def ptrSize : Nat := 8

/-- One owned allocation of the system allocator: a half-open address range
starting at `base` of `size` bytes (a regular block, an irregular block, or a
huge-page mapping). -/
structure Block where
  base : Nat
  size : Nat
deriving Repr, DecidableEq

/-- Round `n` up to the next multiple of `a` (used only by the fresh-address
oracle when bumping `nextFresh` past a system allocation). -/
def roundUp (n a : Nat) : Nat := ((n + a - 1) / a) * a

/-- State of `utils::memory::Arena<N>`: template parameter and the constant
`kBlockSize` fixed at construction, the owned block lists (`blocks_`,
`huge_blocks_`), the counters and the two bump cursors of the active region,
plus the fresh-address oracle `nextFresh` and the address `inlineBase` of the
member array `inline_block_[kInlineSize]`. -/
structure Arena where
  kAlignUnit : Nat
  kBlockSize : Nat
  hugetlb_size : Nat
  inlineBase : Nat
  blocks : List Block
  huge_blocks : List Block
  irregular_block_num : Nat
  blocks_memory : Nat
  unaligned_alloc_ptr : Nat
  aligned_alloc_ptr : Nat
  alloc_bytes_remaining : Nat
  nextFresh : Nat
deriving Repr, DecidableEq

/-- Static member `Arena<N>::OptimizeBlockSize` (arena.cc): clamp into
`[kMinBlockSize, kMaxBlockSize]`, then round up to a multiple of `kAlignUnit`
when not already one.  The first argument is the template parameter `N`. -/
def OptimizeBlockSize (kAlignUnit block_size : Nat) : Nat :=
  let b1 := max kMinBlockSize block_size
  let b2 := min kMaxBlockSize b1
  if b2 % kAlignUnit ≠ 0 then (1 + b2 / kAlignUnit) * kAlignUnit else b2

/-- Constructor `Arena<N>::Arena(block_size, tracker, huge_page_size)`
(arena.cc).  `align` is the template parameter `N`; `inlineBase` the address of
`inline_block_` (the C++ member is `alignas(std::max_align_t)`, so callers
instantiate it with a `kAlignUnit`-aligned address).  `kHugePageSupported` is
true on the modelled platform, so the huge-page rounding of `hugetlb_size_`
is performed exactly as in the source. -/
def Arena.init (align block_size huge_page_size inlineBase : Nat) : Arena :=
  let kbs := OptimizeBlockSize align block_size
  { kAlignUnit := align
    kBlockSize := kbs
    hugetlb_size :=
      if huge_page_size ≠ 0 ∧ huge_page_size < kbs then
        ((kbs - 1) / huge_page_size + 1) * huge_page_size
      else huge_page_size
    inlineBase := inlineBase
    blocks := []
    huge_blocks := []
    irregular_block_num := 0
    blocks_memory := kInlineSize
    unaligned_alloc_ptr := inlineBase + kInlineSize
    aligned_alloc_ptr := inlineBase
    alloc_bytes_remaining := kInlineSize
    nextFresh := inlineBase + kInlineSize }

/-- Getter `Arena::AllocatedAndUnused` (arena.h line 87). -/
def Arena.AllocatedAndUnused (st : Arena) : Nat := st.alloc_bytes_remaining

/-- Getter `Arena::MemoryAllocatedBytes` (arena.h line 84). -/
def Arena.MemoryAllocatedBytes (st : Arena) : Nat := st.blocks_memory

/-- Getter `Arena::IrregularBlockNum` (arena.h line 90). -/
def Arena.IrregularBlockNum (st : Arena) : Nat := st.irregular_block_num

/-- Getter `Arena::BlockSize` (arena.h line 93). -/
def Arena.BlockSize (st : Arena) : Nat := st.kBlockSize

/-- Predicate `Arena::IsInInlineBlock` (arena.h lines 96-98):
`blocks_.empty() && huge_blocks_.empty()`. -/
def Arena.IsInInlineBlock (st : Arena) : Bool :=
  st.blocks.isEmpty && st.huge_blocks.isEmpty

/-- Member `Arena::AllocateNewBlock(block_bytes)` (arena.cc): `new char[block_bytes]`,
push the block onto `blocks_`, add its size to `blocks_memory_` (the build has
no `malloc_usable_size`, so `allocated_size = block_bytes`), and return the
block head.  The fresh-address oracle supplies the heap address. -/
def Arena.AllocateNewBlock (st : Arena) (block_bytes : Nat) : Arena × Nat :=
  let base := st.nextFresh
  ({ st with
      blocks := st.blocks ++ [⟨base, block_bytes⟩]
      blocks_memory := st.blocks_memory + block_bytes
      nextFresh := st.nextFresh + roundUp block_bytes st.kAlignUnit }, base)

/-- Member `Arena::AllocateFromHugePage(bytes)` (arena.cc): try
`MemMapping::AllocateHuge(bytes)`; on success push the mapping onto
`huge_blocks_`, add `bytes` to `blocks_memory_` and return its address, else
return null (`none`).  `ok` is the mmap-success oracle; `mmap` of length 0
yields a null address (`AllocateAnonymous` leaves `addr_` null). -/
def Arena.AllocateFromHugePage (st : Arena) (bytes : Nat) (ok : Bool) :
    Arena × Option Nat :=
  if ok = true ∧ 0 < bytes then
    let base := st.nextFresh
    ({ st with
        huge_blocks := st.huge_blocks ++ [⟨base, bytes⟩]
        blocks_memory := st.blocks_memory + bytes
        nextFresh := st.nextFresh + roundUp bytes st.kAlignUnit }, some base)
  else (st, none)

/-- Member `Arena::AllocateFallback(bytes, aligned)` (arena.cc lines 86-116).
`hugeOk` is the mmap-success oracle for the huge-page attempt. -/
def Arena.AllocateFallback (st : Arena) (bytes : Nat) (aligned : Bool)
    (hugeOk : Bool) : Arena × Nat :=
  if st.kBlockSize / 4 < bytes then
    let st1 := { st with irregular_block_num := st.irregular_block_num + 1 }
    st1.AllocateNewBlock bytes
  else
    let acquired : Arena × Nat × Nat :=
      if 0 < st.hugetlb_size then
        match st.AllocateFromHugePage st.hugetlb_size hugeOk with
        | (st1, some head) => (st1, st.hugetlb_size, head)
        | (st1, none) =>
          let (st2, head) := st1.AllocateNewBlock st.kBlockSize
          (st2, st.kBlockSize, head)
      else
        let (st2, head) := st.AllocateNewBlock st.kBlockSize
        (st2, st.kBlockSize, head)
    let st1 := acquired.1
    let size := acquired.2.1
    let head := acquired.2.2
    let st2 := { st1 with alloc_bytes_remaining := size - bytes }
    if aligned then
      ({ st2 with
          aligned_alloc_ptr := head + bytes
          unaligned_alloc_ptr := head + size }, head)
    else
      ({ st2 with
          aligned_alloc_ptr := head
          unaligned_alloc_ptr := head + size - bytes }, head + size - bytes)

/-- Member `Arena::Allocate(bytes)` (arena.h lines 155-164): carve from the
high end of the active region when `bytes < alloc_bytes_remaining_`, else
delegate to `AllocateFallback(bytes, false)`. -/
def Arena.Allocate (st : Arena) (bytes : Nat) (hugeOk : Bool) : Arena × Nat :=
  if bytes < st.alloc_bytes_remaining then
    ({ st with
        unaligned_alloc_ptr := st.unaligned_alloc_ptr - bytes
        alloc_bytes_remaining := st.alloc_bytes_remaining - bytes },
      st.unaligned_alloc_ptr - bytes)
  else st.AllocateFallback bytes false hugeOk

/-- Tail of `Arena::AllocateAligned` (arena.cc lines 151-164): the slop
computation `aligned_alloc_ptr_ & (kAlignUnit - 1)`, the low-end carve when
`bytes + slop` fits, and the delegation to `AllocateFallback(bytes, true)`. -/
def Arena.alignedCarve (st : Arena) (bytes : Nat) (hugeOk : Bool) :
    Arena × Nat :=
  let current_mod := st.aligned_alloc_ptr &&& (st.kAlignUnit - 1)
  let slop := if current_mod = 0 then 0 else st.kAlignUnit - current_mod
  let needed := bytes + slop
  if needed ≤ st.alloc_bytes_remaining then
    ({ st with
        aligned_alloc_ptr := st.aligned_alloc_ptr + needed
        alloc_bytes_remaining := st.alloc_bytes_remaining - needed },
      st.aligned_alloc_ptr + slop)
  else st.AllocateFallback bytes true hugeOk

/-- Member `Arena::AllocateAligned(bytes, huge_page_size, logger)` (arena.cc
lines 131-165).  When huge pages are configured and hinted, first try a
dedicated huge-page mapping of `bytes` rounded up to a multiple of
`huge_page_size` (`hugeOk1` oracle); on failure only a warning is logged and
the block path is used.  `hugeOk2` is the oracle for the huge-page attempt
inside `AllocateFallback`. -/
def Arena.AllocateAligned (st : Arena) (bytes huge_page_size : Nat)
    (hugeOk1 hugeOk2 : Bool) : Arena × Nat :=
  if 0 < st.hugetlb_size ∧ 0 < huge_page_size then
    let reserved := ((bytes - 1) / huge_page_size + 1) * huge_page_size
    match st.AllocateFromHugePage reserved hugeOk1 with
    | (st1, some addr) => (st1, addr)
    | (st1, none) => st1.alignedCarve bytes hugeOk2
  else st.alignedCarve bytes hugeOk2

/-- One external call to the Arena interface, with its oracle inputs. -/
inductive Op where
  | alloc (bytes : Nat) (hugeOk : Bool)
  | allocAligned (bytes huge_page_size : Nat) (hugeOk1 hugeOk2 : Bool)
deriving Repr, DecidableEq

/-- Requested size of a call. -/
def Op.bytes : Op → Nat
  | .alloc b _ => b
  | .allocAligned b _ _ _ => b

/-- Execute one call, returning the new state and the returned pointer. -/
def Arena.call (st : Arena) : Op → Arena × Nat
  | .alloc b hk => st.Allocate b hk
  | .allocAligned b hps h1 h2 => st.AllocateAligned b hps h1 h2

/-- Execute a sequence of calls, keeping only the final state. -/
def Arena.run (st : Arena) : List Op → Arena
  | [] => st
  | op :: ops => ((st.call op).1).run ops

/-- A half-open address range `[lo, lo + len)`. -/
structure Region where
  lo : Nat
  len : Nat
deriving Repr, DecidableEq

/-- Upper end of a region. -/
def Region.hi (r : Region) : Nat := r.lo + r.len

/-- Disjointness of address ranges. -/
def Region.Disj (r s : Region) : Prop := r.hi ≤ s.lo ∨ s.hi ≤ r.lo

/-- Containment of address ranges. -/
def Region.Sub (r s : Region) : Prop := s.lo ≤ r.lo ∧ r.hi ≤ s.hi

/-- The address range of an owned block. -/
def Block.region (b : Block) : Region := ⟨b.base, b.size⟩

/-- The address range of the inline buffer `inline_block_`. -/
def Arena.inlineRegion (st : Arena) : Region := ⟨st.inlineBase, kInlineSize⟩

/-- All storage owned by the Arena: the inline buffer, the regular/irregular
blocks and the huge-page mappings. -/
def Arena.owned (st : Arena) : List Region :=
  st.inlineRegion :: (st.blocks.map Block.region ++ st.huge_blocks.map Block.region)

/-- The active carving region `[aligned_alloc_ptr_, aligned_alloc_ptr_ +
alloc_bytes_remaining_)` of the current block. -/
def Arena.active (st : Arena) : Region :=
  ⟨st.aligned_alloc_ptr, st.alloc_bytes_remaining⟩

/-- Execute a sequence of calls, returning the final state together with the
returned region (pointer and requested length) of every call, in call order. -/
def Arena.runTrace (st : Arena) : List Op → Arena × List Region
  | [] => (st, [])
  | op :: ops =>
    let s1 := st.call op
    let rest := (s1.1).runTrace ops
    (rest.1, ⟨s1.2, op.bytes⟩ :: rest.2)

/-- One per-core shard of `ConcurrentArena` (concurrent_arena.h): the free
region start pointer `free_begin_` and the count `allocated_and_unused_`.
The spin lock and padding fields have no allocation semantics. -/
structure Shard where
  free_begin : Nat
  allocated_and_unused : Nat
deriving Repr, DecidableEq

instance : Inhabited Shard := ⟨⟨0, 0⟩⟩

/-- State of `utils::memory::ConcurrentArena<N>`: the shard block size, the
core-local shard array (`CoreLocalArray` of size a power of two), the wrapped
`Arena` and the three atomic caches refreshed by `Fixup`. -/
structure CArena where
  shard_block_size : Nat
  shards : List Shard
  arena : Arena
  arena_allocated_and_unused : Nat
  memory_allocated_bytes : Nat
  irregular_block_num : Nat
deriving Repr, DecidableEq

/-- Per-call scheduling environment of a `ConcurrentArena` call, modelling the
thread-local/platform inputs of `AllocateImpl`: the value read from
`tls_cpuid`, whether `arena_mutex_.try_lock()` would succeed immediately,
whether the chosen shard's `try_lock` succeeds (else `Repick()` supplies
`repickIdx`), and the huge-page mmap oracles. -/
structure Env where
  cpu : Nat
  arenaTryLockOk : Bool
  shardTryLockOk : Bool
  repickIdx : Nat
  hugeOk1 : Bool
  hugeOk2 : Bool
deriving Repr, DecidableEq

/-- Member `ConcurrentArena::Fixup` (concurrent_arena.h): refresh the three
atomic caches from the Arena's authoritative counters. -/
def CArena.Fixup (ca : CArena) : CArena :=
  { ca with
      arena_allocated_and_unused := ca.arena.AllocatedAndUnused
      memory_allocated_bytes := ca.arena.MemoryAllocatedBytes
      irregular_block_num := ca.arena.IrregularBlockNum }

/-- Constructor `ConcurrentArena::ConcurrentArena(block_size, tracker,
huge_page_size)` (concurrent_arena.cc): `shard_block_size_ =
min(kMaxShardBlockSize, block_size / 8)`, default-constructed shards
(`free_begin_ = nullptr`, `allocated_and_unused_ = 0`), the wrapped Arena, and
a final `Fixup()`.  `numShards` is the `CoreLocalArray` size. -/
def CArena.init (align block_size huge_page_size inlineBase numShards : Nat) :
    CArena :=
  CArena.Fixup
    { shard_block_size := min kMaxShardBlockSize (block_size / 8)
      shards := List.replicate numShards ⟨0, 0⟩
      arena := Arena.init align block_size huge_page_size inlineBase
      arena_allocated_and_unused := 0
      memory_allocated_bytes := 0
      irregular_block_num := 0 }

/-- The shard index used by `AllocateImpl`: `tls_cpuid & (shards_.Size() - 1)`
when the shard's `try_lock` succeeds, else the index delivered by `Repick()`
(always in range because `AccessElementAndIndex` masks with `Size() - 1`). -/
def CArena.shardIndex (ca : CArena) (env : Env) : Nat :=
  if env.shardTryLockOk then env.cpu &&& (ca.shards.length - 1)
  else env.repickIdx &&& (ca.shards.length - 1)

/-- Common tail of the shard path of `AllocateImpl`: store
`allocated_and_unused_ = avail - bytes`, then carve from the low end
(advancing `free_begin_`) when `bytes` is a multiple of `sizeof(void*)`, else
from the high end. -/
def CArena.shardCarve (ca : CArena) (idx avail bytes : Nat) : CArena × Nat :=
  let s := ca.shards.getD idx default
  if bytes % ptrSize = 0 then
    ({ ca with
        shards := ca.shards.set idx
          ⟨s.free_begin + bytes, avail - bytes⟩ }, s.free_begin)
  else
    ({ ca with
        shards := ca.shards.set idx
          ⟨s.free_begin, avail - bytes⟩ }, s.free_begin + avail - bytes)

/-- Member template `ConcurrentArena::AllocateImpl(bytes, force_arena, func)`
(concurrent_arena.h lines 232-316).  `func` is the direct-arena allocation
callback.  The three-way direct-path test, the shard pick with `Repick` on
lock contention, the insufficient-shard reload (inline-block shortcut, refill
size heuristic, `AllocateAligned` refill installed into `free_begin_`) and the
two-ended shard carve follow the source line by line. -/
def CArena.AllocateImpl (ca : CArena) (bytes : Nat) (force_arena : Bool)
    (env : Env) (func : Arena → Arena × Nat) : CArena × Nat :=
  if ca.shard_block_size / 4 < bytes ∨ force_arena = true ∨
      (env.cpu = 0 ∧
        (ca.shards.getD 0 default).allocated_and_unused = 0 ∧
        env.arenaTryLockOk = true) then
    let r := func ca.arena
    (({ ca with arena := r.1 }).Fixup, r.2)
  else
    let idx := ca.shardIndex env
    let s := ca.shards.getD idx default
    let avail := s.allocated_and_unused
    if avail < bytes then
      let exact := ca.arena_allocated_and_unused
      if bytes ≤ exact ∧ ca.arena.IsInInlineBlock = true then
        let r := func ca.arena
        (({ ca with arena := r.1 }).Fixup, r.2)
      else
        let avail1 :=
          if ca.shard_block_size / 2 ≤ exact ∧ exact < ca.shard_block_size * 2
          then exact else ca.shard_block_size
        let r := ca.arena.AllocateAligned avail1 0 env.hugeOk1 env.hugeOk2
        let ca1 := CArena.Fixup
          { ca with
              arena := r.1
              shards := ca.shards.set idx ⟨r.2, s.allocated_and_unused⟩ }
        ca1.shardCarve idx avail1 bytes
    else
      ca.shardCarve idx avail bytes

/-- Member `ConcurrentArena::Allocate(bytes)` (concurrent_arena.h lines
34-38). -/
def CArena.Allocate (ca : CArena) (bytes : Nat) (env : Env) : CArena × Nat :=
  ca.AllocateImpl bytes false env (fun a => a.Allocate bytes env.hugeOk2)

/-- Member `ConcurrentArena::AllocateAligned(bytes, huge_page_size, logger)`
(concurrent_arena.h lines 40-50): round the request up to a multiple of
`sizeof(void*)` via `((bytes - 1) | (sizeof(void*) - 1)) + 1`, force the arena
path when a huge-page size is hinted, and delegate to `AllocateImpl`. -/
def CArena.AllocateAligned (ca : CArena) (bytes huge_page_size : Nat)
    (env : Env) : CArena × Nat :=
  let rounded_up := ((bytes - 1) ||| (ptrSize - 1)) + 1
  ca.AllocateImpl rounded_up (decide (huge_page_size ≠ 0)) env
    (fun a => a.AllocateAligned rounded_up huge_page_size env.hugeOk1 env.hugeOk2)

/-! ### Helper lemmas -/

/-- The clamped size `min kMaxBlockSize (max kMinBlockSize x)` lies in
`[kMinBlockSize, kMaxBlockSize]`. -/
theorem clamp_mem (x : Nat) :
    kMinBlockSize ≤ min kMaxBlockSize (max kMinBlockSize x) ∧
    min kMaxBlockSize (max kMinBlockSize x) ≤ kMaxBlockSize := by
  constructor
  · exact le_min (by decide) (le_max_left _ _)
  · exact min_le_left _ _

/-- Unfolding equation for `OptimizeBlockSize` with the local lets reduced. -/
theorem OptimizeBlockSize_eq (a x : Nat) :
    OptimizeBlockSize a x =
      if min kMaxBlockSize (max kMinBlockSize x) % a ≠ 0 then
        (1 + min kMaxBlockSize (max kMinBlockSize x) / a) * a
      else min kMaxBlockSize (max kMinBlockSize x) := rfl

/-- Range, divisibility and idempotence of `OptimizeBlockSize`, for any
positive `kAlignUnit` dividing `kMaxBlockSize` (the template static assert
forces `N` to be a power of two, and `kMaxBlockSize = 2^31`). -/
theorem OptimizeBlockSize_props (a x : Nat) (ha : 0 < a)
    (hdvd : a ∣ kMaxBlockSize) :
    kMinBlockSize ≤ OptimizeBlockSize a x ∧
    OptimizeBlockSize a x ≤ kMaxBlockSize ∧
    a ∣ OptimizeBlockSize a x := by
  obtain ⟨hmin, hmax⟩ := clamp_mem x
  rw [OptimizeBlockSize_eq]
  set b2 := min kMaxBlockSize (max kMinBlockSize x) with hb2
  by_cases hmod : b2 % a ≠ 0
  · rw [if_pos hmod]
    obtain ⟨m, hm⟩ := hdvd
    have hblt : b2 < kMaxBlockSize := by
      rcases Nat.lt_or_ge b2 kMaxBlockSize with h | h
      · exact h
      · exfalso
        have : b2 = kMaxBlockSize := le_antisymm hmax h
        apply hmod
        rw [this, hm, Nat.mul_mod_right]
    have hdivlt : b2 / a < m := by
      rw [Nat.div_lt_iff_lt_mul ha]
      calc b2 < kMaxBlockSize := hblt
        _ = m * a := by rw [hm, Nat.mul_comm]
    refine ⟨?_, ?_, ?_⟩
    · calc kMinBlockSize ≤ b2 := hmin
        _ ≤ (1 + b2 / a) * a := by
            have := Nat.lt_mul_div_succ b2 ha
            calc b2 ≤ a * (b2 / a + 1) := Nat.le_of_lt this
              _ = (1 + b2 / a) * a := by ring
    · calc (1 + b2 / a) * a ≤ m * a := by
            exact Nat.mul_le_mul_right a (by omega)
        _ = kMaxBlockSize := by rw [hm, Nat.mul_comm]
    · exact Dvd.intro_left _ rfl
  · rw [if_neg hmod]
    push_neg at hmod
    exact ⟨hmin, hmax, Nat.dvd_of_mod_eq_zero hmod⟩

/-- A value already in range and divisible by `kAlignUnit` is a fixed point of
`OptimizeBlockSize`. -/
theorem OptimizeBlockSize_fixed (a r : Nat) (h1 : kMinBlockSize ≤ r)
    (h2 : r ≤ kMaxBlockSize) (h3 : a ∣ r) : OptimizeBlockSize a r = r := by
  rw [OptimizeBlockSize_eq, Nat.max_eq_right h1, Nat.min_eq_right h2]
  have hz : r % a = 0 := by
    obtain ⟨c, rfl⟩ := h3
    exact Nat.mul_mod_right a c
  simp [hz]

/-! ### Claim theorems: pure block-size arithmetic -/

/-- Claim C6: for every input, `OptimizeBlockSize` is pure and idempotent,
and its result lies in `[kMinBlockSize, kMaxBlockSize]` and is divisible by
`kAlignUnit`.  Hypotheses: `kAlignUnit` (the template parameter `N`) is
positive and divides `kMaxBlockSize = 2^31`, which follows from the static
assert that `N` is a power of two representable in `int`. -/
theorem optimizeBlockSize_idempotent_and_in_range (a x : Nat) (ha : 0 < a)
    (hdvd : a ∣ kMaxBlockSize) :
    OptimizeBlockSize a (OptimizeBlockSize a x) = OptimizeBlockSize a x ∧
    kMinBlockSize ≤ OptimizeBlockSize a x ∧
    OptimizeBlockSize a x ≤ kMaxBlockSize ∧
    a ∣ OptimizeBlockSize a x := by
  obtain ⟨h1, h2, h3⟩ := OptimizeBlockSize_props a x ha hdvd
  exact ⟨OptimizeBlockSize_fixed a _ h1 h2 h3, h1, h2, h3⟩

/-- Witness for C6 at `kAlignUnit = 16`, `x = 5000`. -/
theorem optimizeBlockSize_idempotent_and_in_range_witness :
    OptimizeBlockSize 16 (OptimizeBlockSize 16 5000) = OptimizeBlockSize 16 5000 ∧
    kMinBlockSize ≤ OptimizeBlockSize 16 5000 ∧
    OptimizeBlockSize 16 5000 ≤ kMaxBlockSize ∧
    16 ∣ OptimizeBlockSize 16 5000 :=
  optimizeBlockSize_idempotent_and_in_range 16 5000 (by decide) (by decide)

/-- Claim C7: the `ConcurrentArena` constructor sets the per-shard refill
chunk size to `min(128*1024, block_size / 8)`, for every `block_size` (and
any other constructor parameters). -/
theorem concurrentArena_shard_block_size (align block_size huge_page_size
    inlineBase numShards : Nat) :
    (CArena.init align block_size huge_page_size inlineBase
        numShards).shard_block_size = min (128 * 1024) (block_size / 8) := rfl

/-! ### Block-creation bookkeeping lemmas -/

/-- Member `AllocateNewBlock` appends one regular block and touches no cursor. -/
theorem AllocateNewBlock_fields (st : Arena) (n : Nat) :
    (st.AllocateNewBlock n).1.blocks = st.blocks ++ [⟨st.nextFresh, n⟩] ∧
    (st.AllocateNewBlock n).1.huge_blocks = st.huge_blocks ∧
    (st.AllocateNewBlock n).1.aligned_alloc_ptr = st.aligned_alloc_ptr ∧
    (st.AllocateNewBlock n).1.unaligned_alloc_ptr = st.unaligned_alloc_ptr ∧
    (st.AllocateNewBlock n).1.alloc_bytes_remaining = st.alloc_bytes_remaining ∧
    (st.AllocateNewBlock n).1.irregular_block_num = st.irregular_block_num ∧
    (st.AllocateNewBlock n).2 = st.nextFresh := by
  unfold Arena.AllocateNewBlock
  exact ⟨rfl, rfl, rfl, rfl, rfl, rfl, rfl⟩

/-- Unfolding equation for a successful huge-page attempt. -/
theorem AllocateFromHugePage_pos (st : Arena) (bytes : Nat) (ok : Bool)
    (h : ok = true ∧ 0 < bytes) :
    st.AllocateFromHugePage bytes ok =
      ({ st with
          huge_blocks := st.huge_blocks ++ [⟨st.nextFresh, bytes⟩]
          blocks_memory := st.blocks_memory + bytes
          nextFresh := st.nextFresh + roundUp bytes st.kAlignUnit },
        some st.nextFresh) := by
  unfold Arena.AllocateFromHugePage
  rw [if_pos h]

/-- Unfolding equation for a failed huge-page attempt: null result, state
untouched. -/
theorem AllocateFromHugePage_neg (st : Arena) (bytes : Nat) (ok : Bool)
    (h : ¬ (ok = true ∧ 0 < bytes)) :
    st.AllocateFromHugePage bytes ok = (st, none) := by
  unfold Arena.AllocateFromHugePage
  rw [if_neg h]

/-- The fallback path always acquires exactly one new system allocation
(an irregular block, a regular block, or a huge-page mapping). -/
theorem AllocateFallback_adds_one_block (st : Arena) (bytes : Nat)
    (aligned hugeOk : Bool) :
    (st.AllocateFallback bytes aligned hugeOk).1.blocks.length +
      (st.AllocateFallback bytes aligned hugeOk).1.huge_blocks.length =
    st.blocks.length + st.huge_blocks.length + 1 := by
  unfold Arena.AllocateFallback Arena.AllocateNewBlock Arena.AllocateFromHugePage
  by_cases h : st.kBlockSize / 4 < bytes
  · simp +arith [h]
  · by_cases hh : 0 < st.hugetlb_size
    · cases hugeOk with
      | true =>
        simp +arith [h, hh]
        split <;> simp +arith
      | false =>
        simp +arith [h, hh]
        split <;> simp +arith
    · simp +arith [h, hh]
      split <;> simp +arith

/-! ### Claim theorems: fallback-path behaviour -/

/-- Counterexample to claim C2 as stated: on the freshly constructed default
`Arena` (block size 4096, so `kBlockSize/4 = 1024`), `Allocate(1500)` has
`bytes > kBlockSize/4` yet is carved from the inline buffer: no irregular
block is created and `IrregularBlockNum()` stays 0, because the in-region
test `bytes < alloc_bytes_remaining_` (1500 < 2048) runs before the fallback
size test. -/
theorem allocate_large_served_in_region :
    (Arena.init 16 4096 0 0).kBlockSize / 4 < 1500 ∧
    ((Arena.init 16 4096 0 0).Allocate 1500 false).1.IrregularBlockNum = 0 ∧
    ((Arena.init 16 4096 0 0).Allocate 1500 false).1.blocks = [] ∧
    ((Arena.init 16 4096 0 0).Allocate 1500 false).1.huge_blocks = [] := by
  decide

/-- Claim C2 as amended: when a request with `bytes > kBlockSize/4` reaches
the fallback path, it creates exactly one new irregular block sized exactly
`bytes`, increments `IrregularBlockNum()` by exactly 1, and returns the new
block itself, disjoint from every previously owned region (in particular it
never serves the request from a previously created irregular block). -/
theorem fallback_large_creates_one_irregular (st : Arena) (bytes : Nat)
    (aligned hugeOk : Bool) (h : st.kBlockSize / 4 < bytes)
    (hbound : ∀ o ∈ st.owned, o.hi ≤ st.nextFresh) :
    (st.AllocateFallback bytes aligned hugeOk).1.IrregularBlockNum =
      st.IrregularBlockNum + 1 ∧
    (st.AllocateFallback bytes aligned hugeOk).1.blocks =
      st.blocks ++ [⟨st.nextFresh, bytes⟩] ∧
    (st.AllocateFallback bytes aligned hugeOk).1.huge_blocks = st.huge_blocks ∧
    (st.AllocateFallback bytes aligned hugeOk).2 = st.nextFresh ∧
    ∀ o ∈ st.owned,
      Region.Disj ⟨(st.AllocateFallback bytes aligned hugeOk).2, bytes⟩ o := by
  have hfb : st.AllocateFallback bytes aligned hugeOk =
      ({ st with irregular_block_num := st.irregular_block_num + 1
         } : Arena).AllocateNewBlock bytes := by
    unfold Arena.AllocateFallback
    rw [if_pos h]
  rw [hfb]
  unfold Arena.AllocateNewBlock Arena.IrregularBlockNum
  refine ⟨rfl, rfl, rfl, rfl, ?_⟩
  intro o ho
  exact Or.inr (hbound o ho)

/-- Witness for the amended C2 at a concrete state and request. -/
theorem fallback_large_creates_one_irregular_witness :
    ((Arena.init 16 4096 0 0).AllocateFallback 1500 false false).1.IrregularBlockNum =
      (Arena.init 16 4096 0 0).IrregularBlockNum + 1 ∧
    ((Arena.init 16 4096 0 0).AllocateFallback 1500 false false).1.blocks =
      (Arena.init 16 4096 0 0).blocks ++ [⟨(Arena.init 16 4096 0 0).nextFresh, 1500⟩] ∧
    ((Arena.init 16 4096 0 0).AllocateFallback 1500 false false).1.huge_blocks =
      (Arena.init 16 4096 0 0).huge_blocks ∧
    ((Arena.init 16 4096 0 0).AllocateFallback 1500 false false).2 =
      (Arena.init 16 4096 0 0).nextFresh ∧
    ∀ o ∈ (Arena.init 16 4096 0 0).owned,
      Region.Disj ⟨((Arena.init 16 4096 0 0).AllocateFallback 1500 false false).2, 1500⟩ o :=
  fallback_large_creates_one_irregular (Arena.init 16 4096 0 0) 1500 false false
    (by decide) (by decide)

/-- Counterexample to claim C4 as stated: in the boundary case
`bytes == alloc_bytes_remaining_` the request is NOT carved from the active
region.  On the freshly constructed default Arena (`alloc_bytes_remaining_ =
2048`), `Allocate(2048)` leaves the remaining counter at 2048 (a carve would
leave 0) and allocates a new block instead, because the in-region test is the
strict `bytes < alloc_bytes_remaining_`. -/
theorem allocate_boundary_takes_fallback :
    (Arena.init 16 4096 0 0).alloc_bytes_remaining = 2048 ∧
    ((Arena.init 16 4096 0 0).Allocate 2048 false).1.alloc_bytes_remaining = 2048 ∧
    ((Arena.init 16 4096 0 0).Allocate 2048 false).1.blocks.length = 1 := by
  decide

/-- Claim C4 as amended: `Allocate(bytes)` carves the result from the high
end of the active region (unaligned cursor moved down by `bytes`, remaining
counter decreased by `bytes`, no block created) exactly when
`bytes < alloc_bytes_remaining_` (strictly); otherwise — including the
boundary case `bytes == alloc_bytes_remaining_` — it delegates to the
fallback path, which acquires exactly one new block. -/
theorem allocate_carve_iff_fits_strictly (st : Arena) (bytes : Nat)
    (hugeOk : Bool) :
    (bytes < st.alloc_bytes_remaining →
      (st.Allocate bytes hugeOk).2 = st.unaligned_alloc_ptr - bytes ∧
      (st.Allocate bytes hugeOk).1.unaligned_alloc_ptr =
        st.unaligned_alloc_ptr - bytes ∧
      (st.Allocate bytes hugeOk).1.alloc_bytes_remaining =
        st.alloc_bytes_remaining - bytes ∧
      (st.Allocate bytes hugeOk).1.aligned_alloc_ptr = st.aligned_alloc_ptr ∧
      (st.Allocate bytes hugeOk).1.blocks = st.blocks ∧
      (st.Allocate bytes hugeOk).1.huge_blocks = st.huge_blocks) ∧
    (st.alloc_bytes_remaining ≤ bytes →
      st.Allocate bytes hugeOk = st.AllocateFallback bytes false hugeOk ∧
      (st.Allocate bytes hugeOk).1.blocks.length +
        (st.Allocate bytes hugeOk).1.huge_blocks.length =
      st.blocks.length + st.huge_blocks.length + 1) := by
  constructor
  · intro h
    unfold Arena.Allocate
    rw [if_pos h]
    exact ⟨rfl, rfl, rfl, rfl, rfl, rfl⟩
  · intro h
    have hlt : ¬ bytes < st.alloc_bytes_remaining := by omega
    have heq : st.Allocate bytes hugeOk = st.AllocateFallback bytes false hugeOk := by
      unfold Arena.Allocate
      rw [if_neg hlt]
    refine ⟨heq, ?_⟩
    rw [heq]
    exact AllocateFallback_adds_one_block st bytes false hugeOk

/-- Witness for the amended C4: carve branch at `Allocate(100)` on the fresh
default Arena, fallback branch at `Allocate(2048)`. -/
theorem allocate_carve_iff_fits_strictly_witness :
    (100 < (Arena.init 16 4096 0 0).alloc_bytes_remaining ∧
      ((Arena.init 16 4096 0 0).Allocate 100 false).2 =
        (Arena.init 16 4096 0 0).unaligned_alloc_ptr - 100) ∧
    ((Arena.init 16 4096 0 0).alloc_bytes_remaining ≤ 2048 ∧
      (Arena.init 16 4096 0 0).Allocate 2048 false =
        (Arena.init 16 4096 0 0).AllocateFallback 2048 false false) := by
  constructor
  · exact ⟨by decide,
      ((allocate_carve_iff_fits_strictly (Arena.init 16 4096 0 0) 100 false).1
        (by decide)).1⟩
  · exact ⟨by decide,
      ((allocate_carve_iff_fits_strictly (Arena.init 16 4096 0 0) 2048 false).2
        (by decide)).1⟩

/-- Claim C10: a call that takes the irregular-block path
(`bytes > kBlockSize/4` on the fallback) leaves the active region's state
unchanged: `aligned_alloc_ptr_`, `unaligned_alloc_ptr_` and
`alloc_bytes_remaining_` (hence `AllocatedAndUnused()`) keep their values. -/
theorem irregular_path_preserves_active_region (st : Arena) (bytes : Nat)
    (aligned hugeOk : Bool) (h : st.kBlockSize / 4 < bytes) :
    (st.AllocateFallback bytes aligned hugeOk).1.aligned_alloc_ptr =
      st.aligned_alloc_ptr ∧
    (st.AllocateFallback bytes aligned hugeOk).1.unaligned_alloc_ptr =
      st.unaligned_alloc_ptr ∧
    (st.AllocateFallback bytes aligned hugeOk).1.alloc_bytes_remaining =
      st.alloc_bytes_remaining ∧
    (st.AllocateFallback bytes aligned hugeOk).1.AllocatedAndUnused =
      st.AllocatedAndUnused := by
  have hfb : st.AllocateFallback bytes aligned hugeOk =
      ({ st with irregular_block_num := st.irregular_block_num + 1
         } : Arena).AllocateNewBlock bytes := by
    unfold Arena.AllocateFallback
    rw [if_pos h]
  rw [hfb]
  unfold Arena.AllocateNewBlock Arena.AllocatedAndUnused
  exact ⟨rfl, rfl, rfl, rfl⟩

/-- Witness for C10 at the irregular request `AllocateFallback(1500)` on the
fresh default Arena. -/
theorem irregular_path_preserves_active_region_witness :
    ((Arena.init 16 4096 0 0).AllocateFallback 1500 false false).1.aligned_alloc_ptr =
      (Arena.init 16 4096 0 0).aligned_alloc_ptr ∧
    ((Arena.init 16 4096 0 0).AllocateFallback 1500 false false).1.unaligned_alloc_ptr =
      (Arena.init 16 4096 0 0).unaligned_alloc_ptr ∧
    ((Arena.init 16 4096 0 0).AllocateFallback 1500 false false).1.alloc_bytes_remaining =
      (Arena.init 16 4096 0 0).alloc_bytes_remaining ∧
    ((Arena.init 16 4096 0 0).AllocateFallback 1500 false false).1.AllocatedAndUnused =
      (Arena.init 16 4096 0 0).AllocatedAndUnused :=
  irregular_path_preserves_active_region (Arena.init 16 4096 0 0) 1500 false false
    (by decide)

/-! ### Block counting and the inline-block predicate -/

/-- Total number of system allocations the Arena owns besides the inline
buffer: regular/irregular blocks plus huge-page mappings. -/
def Arena.blockCount (st : Arena) : Nat :=
  st.blocks.length + st.huge_blocks.length

/-- Predicate `IsInInlineBlock()` holds exactly when no block of any kind exists. -/
theorem IsInInlineBlock_iff_blockCount (st : Arena) :
    st.IsInInlineBlock = true ↔ st.blockCount = 0 := by
  unfold Arena.IsInInlineBlock Arena.blockCount
  cases st.blocks <;> cases st.huge_blocks <;> simp

/-- Restatement of `AllocateFallback_adds_one_block` through `blockCount`. -/
theorem blockCount_AllocateFallback (st : Arena) (bytes : Nat)
    (aligned hugeOk : Bool) :
    (st.AllocateFallback bytes aligned hugeOk).1.blockCount =
      st.blockCount + 1 :=
  AllocateFallback_adds_one_block st bytes aligned hugeOk

/-- Member `Allocate` never destroys blocks. -/
theorem blockCount_le_Allocate (st : Arena) (bytes : Nat) (hugeOk : Bool) :
    st.blockCount ≤ (st.Allocate bytes hugeOk).1.blockCount := by
  unfold Arena.Allocate
  split
  · exact le_refl _
  · rw [blockCount_AllocateFallback]
    omega

/-- The aligned-carve tail never destroys blocks. -/
theorem blockCount_le_alignedCarve (st : Arena) (bytes : Nat) (hugeOk : Bool) :
    st.blockCount ≤ (st.alignedCarve bytes hugeOk).1.blockCount := by
  unfold Arena.alignedCarve
  dsimp only
  split <;> split <;> first
    | exact Nat.le.refl
    | (rw [blockCount_AllocateFallback]; omega)

/-- Member `AllocateAligned` never destroys blocks. -/
theorem blockCount_le_AllocateAligned (st : Arena) (bytes huge_page_size : Nat)
    (h1 h2 : Bool) :
    st.blockCount ≤ (st.AllocateAligned bytes huge_page_size h1 h2).1.blockCount := by
  unfold Arena.AllocateAligned
  dsimp only
  split
  · by_cases hok : h1 = true ∧ 0 < ((bytes - 1) / huge_page_size + 1) * huge_page_size
    · rw [AllocateFromHugePage_pos st _ h1 hok]
      simp +arith [Arena.blockCount]
    · rw [AllocateFromHugePage_neg st _ h1 hok]
      exact blockCount_le_alignedCarve _ _ _
  · exact blockCount_le_alignedCarve _ _ _

/-- A single call never destroys blocks. -/
theorem blockCount_le_call (st : Arena) (op : Op) :
    st.blockCount ≤ (st.call op).1.blockCount := by
  cases op with
  | alloc b hk => exact blockCount_le_Allocate st b hk
  | allocAligned b hps h1 h2 => exact blockCount_le_AllocateAligned st b hps h1 h2

/-- A sequence of calls never destroys blocks. -/
theorem blockCount_le_run (st : Arena) (ops : List Op) :
    st.blockCount ≤ (st.run ops).blockCount := by
  induction ops generalizing st with
  | nil => exact le_refl _
  | cons op ops ih =>
    calc st.blockCount ≤ (st.call op).1.blockCount := blockCount_le_call st op
      _ ≤ ((st.call op).1.run ops).blockCount := ih (st.call op).1

/-- Claim C9: `IsInInlineBlock()` is true from construction until the first
call that creates any block (regular, irregular, or huge-page), and false
from then on permanently.  Part 1: true at construction.  Part 2: once false,
it stays false across any further calls.  Part 3: a call leaves it true
exactly when it was already true and the call created no block of any kind —
so an irregular-block allocation also makes it false, even though the inline
buffer remains the active carving region. -/
theorem isInInlineBlock_until_first_block (align block_size huge_page_size
    inlineBase : Nat) :
    (Arena.init align block_size huge_page_size inlineBase).IsInInlineBlock = true ∧
    (∀ st : Arena, ∀ ops : List Op, st.IsInInlineBlock = false →
      (st.run ops).IsInInlineBlock = false) ∧
    (∀ st : Arena, ∀ op : Op,
      ((st.call op).1.IsInInlineBlock = true ↔
        (st.IsInInlineBlock = true ∧ (st.call op).1.blockCount = st.blockCount))) := by
  refine ⟨rfl, ?_, ?_⟩
  · intro st ops hfalse
    have h0 : ¬ st.blockCount = 0 := by
      intro h
      rw [← IsInInlineBlock_iff_blockCount] at h
      rw [hfalse] at h
      exact Bool.false_ne_true h
    have hle := blockCount_le_run st ops
    have : ¬ (st.run ops).blockCount = 0 := by omega
    rw [← IsInInlineBlock_iff_blockCount] at this
    cases hrun : (st.run ops).IsInInlineBlock with
    | false => rfl
    | true => exact absurd hrun this
  · intro st op
    have hle := blockCount_le_call st op
    rw [IsInInlineBlock_iff_blockCount, IsInInlineBlock_iff_blockCount]
    omega

/-- Witness for C9: after the irregular-block allocation `Allocate(2048)` on
the fresh default Arena, `IsInInlineBlock()` is false and stays false. -/
theorem isInInlineBlock_until_first_block_witness :
    (((Arena.init 16 4096 0 0).Allocate 2048 false).1.run
        [Op.alloc 5 false]).IsInInlineBlock = false :=
  (isInInlineBlock_until_first_block 16 4096 0 0).2.1
    ((Arena.init 16 4096 0 0).Allocate 2048 false).1 [Op.alloc 5 false] (by decide)

/-! ### Region arithmetic -/

/-- Disjointness of address ranges is symmetric. -/
theorem Region.Disj.symm {r s : Region} (h : r.Disj s) : s.Disj r :=
  h.elim Or.inr Or.inl

/-- Containment of address ranges is transitive. -/
theorem Region.Sub.trans {r s t : Region} (h1 : r.Sub s) (h2 : s.Sub t) :
    r.Sub t := by
  unfold Region.Sub Region.hi at *
  omega

/-- A subrange of a range disjoint from `t` is disjoint from `t`. -/
theorem Region.Sub.disj_left {r s t : Region} (h : r.Sub s) (hd : s.Disj t) :
    r.Disj t := by
  unfold Region.Sub Region.Disj Region.hi at *
  omega

/-- Rounding up is inflationary for a positive alignment. -/
theorem le_roundUp (n a : Nat) (ha : 0 < a) : n ≤ roundUp n a := by
  unfold roundUp
  have hdm := Nat.div_add_mod (n + a - 1) a
  have hlt : (n + a - 1) % a < a := Nat.mod_lt _ ha
  have hcomm : ((n + a - 1) / a) * a = a * ((n + a - 1) / a) := Nat.mul_comm _ _
  omega

/-- The rounded-up value is a multiple of the alignment. -/
theorem dvd_roundUp (n a : Nat) : a ∣ roundUp n a := Dvd.intro_left _ rfl

/-! ### The acquisition abstraction

Every path that obtains a new system allocation (regular block, irregular
block, huge-page mapping) relates the old and new Arena states in the same
way: a fresh region `⟨head, size⟩` starting at the old `nextFresh` is added to
the owned storage, `nextFresh` moves past it, and nothing else that matters
changes. -/

/-- Relation between Arena states across one system allocation of `size`
bytes at address `head`. -/
structure Acquired (st st1 : Arena) (head size : Nat) : Prop where
  head_eq : head = st.nextFresh
  fresh_eq : st1.nextFresh = st.nextFresh + roundUp size st.kAlignUnit
  owned_iff : ∀ x, x ∈ st1.owned ↔ x ∈ st.owned ∨ x = ⟨head, size⟩
  align_eq : st1.kAlignUnit = st.kAlignUnit
  kbs_eq : st1.kBlockSize = st.kBlockSize
  htlb_eq : st1.hugetlb_size = st.hugetlb_size
  aligned_eq : st1.aligned_alloc_ptr = st.aligned_alloc_ptr
  unaligned_eq : st1.unaligned_alloc_ptr = st.unaligned_alloc_ptr
  remaining_eq : st1.alloc_bytes_remaining = st.alloc_bytes_remaining

/-- Member `AllocateNewBlock` is an acquisition. -/
theorem acquired_newBlock (st : Arena) (n : Nat) :
    Acquired st (st.AllocateNewBlock n).1 (st.AllocateNewBlock n).2 n := by
  unfold Arena.AllocateNewBlock
  refine ⟨rfl, rfl, ?_, rfl, rfl, rfl, rfl, rfl, rfl⟩
  intro x
  simp only [Arena.owned, Arena.inlineRegion, Block.region, List.map_append,
    List.mem_cons, List.mem_append, List.mem_map, List.map_cons, List.map_nil,
    List.mem_singleton]
  aesop

/-- A successful `AllocateFromHugePage` is an acquisition. -/
theorem acquired_hugePage (st : Arena) (n : Nat) (ok : Bool)
    (h : ok = true ∧ 0 < n) :
    Acquired st (st.AllocateFromHugePage n ok).1 st.nextFresh n := by
  rw [AllocateFromHugePage_pos st n ok h]
  refine ⟨rfl, rfl, ?_, rfl, rfl, rfl, rfl, rfl, rfl⟩
  intro x
  simp only [Arena.owned, Arena.inlineRegion, Block.region, List.map_append,
    List.mem_cons, List.mem_append, List.mem_map, List.map_cons, List.map_nil,
    List.mem_singleton]
  aesop

/-- Unfolding equation of the irregular branch of `AllocateFallback`. -/
theorem AllocateFallback_irregular (st : Arena) (bytes : Nat)
    (aligned hugeOk : Bool) (h : st.kBlockSize / 4 < bytes) :
    st.AllocateFallback bytes aligned hugeOk =
      ({ st with
          irregular_block_num := st.irregular_block_num + 1
          blocks := st.blocks ++ [⟨st.nextFresh, bytes⟩]
          blocks_memory := st.blocks_memory + bytes
          nextFresh := st.nextFresh + roundUp bytes st.kAlignUnit },
        st.nextFresh) := by
  unfold Arena.AllocateFallback Arena.AllocateNewBlock
  rw [if_pos h]

/-- The irregular branch is an acquisition of exactly `bytes` at the returned
pointer, incrementing the irregular counter. -/
theorem acquired_irregular (st : Arena) (bytes : Nat) (aligned hugeOk : Bool)
    (h : st.kBlockSize / 4 < bytes) :
    Acquired st (st.AllocateFallback bytes aligned hugeOk).1
      (st.AllocateFallback bytes aligned hugeOk).2 bytes := by
  rw [AllocateFallback_irregular st bytes aligned hugeOk h]
  have h2 := acquired_newBlock
    ({ st with irregular_block_num := st.irregular_block_num + 1 } : Arena) bytes
  unfold Arena.AllocateNewBlock at h2
  exact ⟨h2.head_eq, h2.fresh_eq, h2.owned_iff, h2.align_eq, h2.kbs_eq,
    h2.htlb_eq, h2.aligned_eq, h2.unaligned_eq, h2.remaining_eq⟩

/-- Structure of the non-irregular fallback: some new block — a huge-page
mapping of `hugetlb_size_` bytes or a regular block of `kBlockSize` bytes —
is acquired and the cursors are installed on it according to `aligned`. -/
theorem AllocateFallback_small (st : Arena) (bytes : Nat)
    (aligned hugeOk : Bool) (h : ¬ st.kBlockSize / 4 < bytes) :
    ∃ st1 head size,
      ((0 < st.hugetlb_size ∧ size = st.hugetlb_size) ∨ size = st.kBlockSize) ∧
      Acquired st st1 head size ∧
      st.AllocateFallback bytes aligned hugeOk =
        (if aligned = true then
          ({ st1 with
              alloc_bytes_remaining := size - bytes
              aligned_alloc_ptr := head + bytes
              unaligned_alloc_ptr := head + size }, head)
         else
          ({ st1 with
              alloc_bytes_remaining := size - bytes
              aligned_alloc_ptr := head
              unaligned_alloc_ptr := head + size - bytes },
            head + size - bytes)) := by
  unfold Arena.AllocateFallback
  rw [if_neg h]
  by_cases hh : 0 < st.hugetlb_size
  · by_cases hok : hugeOk = true ∧ 0 < st.hugetlb_size
    · refine ⟨(st.AllocateFromHugePage st.hugetlb_size hugeOk).1, st.nextFresh,
        st.hugetlb_size, Or.inl ⟨hh, rfl⟩, acquired_hugePage st _ hugeOk hok, ?_⟩
      rw [AllocateFromHugePage_pos st _ hugeOk hok]
      cases aligned <;> simp [hh]
    · refine ⟨(st.AllocateNewBlock st.kBlockSize).1,
        (st.AllocateNewBlock st.kBlockSize).2, st.kBlockSize, Or.inr rfl,
        acquired_newBlock st st.kBlockSize, ?_⟩
      rw [AllocateFromHugePage_neg st _ hugeOk hok]
      cases aligned <;> simp [hh, Arena.AllocateNewBlock]
  · refine ⟨(st.AllocateNewBlock st.kBlockSize).1,
      (st.AllocateNewBlock st.kBlockSize).2, st.kBlockSize, Or.inr rfl,
      acquired_newBlock st st.kBlockSize, ?_⟩
    cases aligned <;> simp [hh, Arena.AllocateNewBlock]

/-! ### The allocator correctness invariant -/

/-- Invariant tying an Arena state to the list `rs` of all regions returned
so far: the cursor identity of the active region, freshness and pairwise
disjointness of the owned storage, containment of the active region and of
every returned region in owned storage, pairwise disjointness of returned
regions, and disjointness of the active region from every returned region. -/
structure Good (st : Arena) (rs : List Region) : Prop where
  align_pos : 0 < st.kAlignUnit
  htlb_ok : st.hugetlb_size = 0 ∨ st.kBlockSize ≤ st.hugetlb_size
  cursor : st.unaligned_alloc_ptr = st.aligned_alloc_ptr + st.alloc_bytes_remaining
  owned_bound : ∀ o ∈ st.owned, o.hi ≤ st.nextFresh
  owned_disj : ∀ o ∈ st.owned, ∀ p ∈ st.owned, o ≠ p → o.Disj p
  active_sub : ∃ o ∈ st.owned, st.active.Sub o
  ret_sub : ∀ r ∈ rs, ∃ o ∈ st.owned, r.Sub o
  ret_pos : ∀ r ∈ rs, 0 < r.len
  ret_disj : rs.Pairwise Region.Disj
  ret_active : ∀ r ∈ rs, st.active.Disj r

/-- The freshly constructed Arena satisfies the invariant with no returned
regions, for a positive alignment unit. -/
theorem Good_init (align block_size huge_page_size inlineBase : Nat)
    (ha : 0 < align) :
    Good (Arena.init align block_size huge_page_size inlineBase) [] := by
  unfold Arena.init
  constructor
  · exact ha
  · dsimp only
    by_cases hcond : huge_page_size ≠ 0 ∧
        huge_page_size < OptimizeBlockSize align block_size
    · rw [if_pos hcond]
      right
      have h1 := Nat.lt_mul_div_succ (OptimizeBlockSize align block_size - 1)
        (Nat.pos_of_ne_zero hcond.1)
      have h2 : huge_page_size *
            ((OptimizeBlockSize align block_size - 1) / huge_page_size + 1) =
          ((OptimizeBlockSize align block_size - 1) / huge_page_size + 1) *
            huge_page_size := Nat.mul_comm _ _
      omega
    · rw [if_neg hcond]
      rcases Nat.eq_zero_or_pos huge_page_size with h | h
      · exact Or.inl h
      · push_neg at hcond
        have := hcond (by omega)
        exact Or.inr (by omega)
  · rfl
  · intro o ho
    simp [Arena.owned, Arena.inlineRegion] at ho
    subst ho
    exact Nat.le.refl
  · intro o ho p hp hne
    simp [Arena.owned, Arena.inlineRegion] at ho hp
    subst ho
    subst hp
    exact absurd rfl hne
  · refine ⟨⟨inlineBase, kInlineSize⟩, ?_, Nat.le.refl, Nat.le.refl⟩
    simp [Arena.owned, Arena.inlineRegion]
  · intro r hr
    exact absurd hr (List.not_mem_nil r)
  · intro r hr
    exact absurd hr (List.not_mem_nil r)
  · exact List.Pairwise.nil
  · intro r hr
    exact absurd hr (List.not_mem_nil r)

/-- Owned-storage facts carried across one acquisition: freshness bound,
pairwise disjointness, preservation of old containments, and location of the
new region past everything returned before. -/
theorem acquired_owned_facts (st st1 : Arena) (rs : List Region)
    (head size : Nat) (hG : Good st rs) (hA : Acquired st st1 head size) :
    (∀ o ∈ st1.owned, o.hi ≤ st1.nextFresh) ∧
    (∀ o ∈ st1.owned, ∀ p ∈ st1.owned, o ≠ p → o.Disj p) ∧
    (∀ r ∈ rs, ∃ o ∈ st1.owned, r.Sub o) ∧
    (∀ r ∈ rs, r.hi ≤ head) ∧
    (⟨head, size⟩ : Region) ∈ st1.owned ∧
    (∀ o ∈ st.owned, o ∈ st1.owned) ∧
    head + size ≤ st1.nextFresh ∧
    st.active.hi ≤ head := by
  have hheadub : head + size ≤ st1.nextFresh := by
    rw [hA.fresh_eq, hA.head_eq]
    have := le_roundUp size st.kAlignUnit hG.align_pos
    omega
  have hold : ∀ o ∈ st.owned, o ∈ st1.owned := by
    intro o ho
    exact (hA.owned_iff o).2 (Or.inl ho)
  have holdhi : ∀ o ∈ st.owned, o.hi ≤ head := by
    intro o ho
    rw [hA.head_eq]
    exact hG.owned_bound o ho
  have hrshi : ∀ r ∈ rs, r.hi ≤ head := by
    intro r hr
    obtain ⟨o, ho, hsub⟩ := hG.ret_sub r hr
    have := holdhi o ho
    unfold Region.Sub Region.hi at *
    omega
  refine ⟨?_, ?_, ?_, hrshi, (hA.owned_iff _).2 (Or.inr rfl), hold, hheadub, ?_⟩
  · intro o ho
    rcases (hA.owned_iff o).1 ho with h | h
    · have h1 := hG.owned_bound o h
      have h2 : st.nextFresh ≤ st1.nextFresh := by
        rw [hA.fresh_eq]
        omega
      omega
    · subst h
      exact hheadub
  · intro o ho p hp hne
    rcases (hA.owned_iff o).1 ho with h | h <;>
      rcases (hA.owned_iff p).1 hp with h2 | h2
    · exact hG.owned_disj o h p h2 hne
    · subst h2
      exact Or.inl (holdhi o h)
    · subst h
      exact Or.inr (holdhi p h2)
    · subst h
      subst h2
      exact absurd rfl hne
  · intro r hr
    obtain ⟨o, ho, hsub⟩ := hG.ret_sub r hr
    exact ⟨o, hold o ho, hsub⟩
  · obtain ⟨o, ho, hsub⟩ := hG.active_sub
    have := holdhi o ho
    unfold Region.Sub Region.hi at *
    omega

/-- Invariant preservation for the in-region unaligned carve of
`Allocate`. -/
theorem Good_carve_unaligned (st : Arena) (rs : List Region) (bytes : Nat)
    (hugeOk : Bool) (hb : 0 < bytes) (hlt : bytes < st.alloc_bytes_remaining)
    (hG : Good st rs) :
    Good (st.Allocate bytes hugeOk).1
      (⟨(st.Allocate bytes hugeOk).2, bytes⟩ :: rs) := by
  unfold Arena.Allocate
  rw [if_pos hlt]
  obtain ⟨o, ho, hsub⟩ := hG.active_sub
  have hc := hG.cursor
  have hsubactive : Region.Sub ⟨st.unaligned_alloc_ptr - bytes, bytes⟩ st.active := by
    unfold Region.Sub Region.hi Arena.active
    dsimp only
    omega
  have hsubactive2 : Region.Sub
      ⟨st.aligned_alloc_ptr, st.alloc_bytes_remaining - bytes⟩ st.active := by
    unfold Region.Sub Region.hi Arena.active
    dsimp only
    omega
  constructor
  · exact hG.align_pos
  · exact hG.htlb_ok
  · dsimp only
    omega
  · exact hG.owned_bound
  · exact hG.owned_disj
  · exact ⟨o, ho, hsubactive2.trans hsub⟩
  · intro r hr
    rcases List.mem_cons.1 hr with h | h
    · subst h
      exact ⟨o, ho, hsubactive.trans hsub⟩
    · exact hG.ret_sub r h
  · intro r hr
    rcases List.mem_cons.1 hr with h | h
    · subst h
      exact hb
    · exact hG.ret_pos r h
  · refine List.Pairwise.cons ?_ hG.ret_disj
    intro r hr
    exact hsubactive.disj_left (hG.ret_active r hr)
  · intro r hr
    rcases List.mem_cons.1 hr with h | h
    · subst h
      unfold Region.Disj Region.hi Arena.active
      dsimp only
      omega
    · exact hsubactive2.disj_left (hG.ret_active r h)

/-- Invariant preservation for the whole fallback path (irregular block,
huge-page block, or regular block). -/
theorem Good_fallback (st : Arena) (rs : List Region) (bytes : Nat)
    (aligned hugeOk : Bool) (hb : 0 < bytes) (hG : Good st rs) :
    Good (st.AllocateFallback bytes aligned hugeOk).1
      (⟨(st.AllocateFallback bytes aligned hugeOk).2, bytes⟩ :: rs) := by
  by_cases hirr : st.kBlockSize / 4 < bytes
  · have hA := acquired_irregular st bytes aligned hugeOk hirr
    obtain ⟨hBound, hDisj, hSub, hRsHi, hMem, hOld, hUb, hActHi⟩ :=
      acquired_owned_facts st _ rs _ bytes hG hA
    have hacteq : (st.AllocateFallback bytes aligned hugeOk).1.active = st.active := by
      unfold Arena.active
      rw [hA.aligned_eq, hA.remaining_eq]
    constructor
    · rw [hA.align_eq]
      exact hG.align_pos
    · rw [hA.htlb_eq, hA.kbs_eq]
      exact hG.htlb_ok
    · rw [hA.unaligned_eq, hA.aligned_eq, hA.remaining_eq]
      exact hG.cursor
    · exact hBound
    · exact hDisj
    · obtain ⟨o, ho, hsub⟩ := hG.active_sub
      refine ⟨o, hOld o ho, ?_⟩
      rw [hacteq]
      exact hsub
    · intro r hr
      rcases List.mem_cons.1 hr with h | h
      · subst h
        exact ⟨_, hMem, Nat.le.refl, Nat.le.refl⟩
      · exact hSub r h
    · intro r hr
      rcases List.mem_cons.1 hr with h | h
      · subst h
        exact hb
      · exact hG.ret_pos r h
    · refine List.Pairwise.cons ?_ hG.ret_disj
      intro r hr
      exact Or.inr (hRsHi r hr)
    · intro r hr
      rw [hacteq]
      rcases List.mem_cons.1 hr with h | h
      · subst h
        exact Or.inl hActHi
      · exact hG.ret_active r h
  · obtain ⟨st1, head, size, hsize, hA, heq⟩ :=
      AllocateFallback_small st bytes aligned hugeOk hirr
    obtain ⟨hBound, hDisj, hSub, hRsHi, hMem, hOld, hUb, hActHi⟩ :=
      acquired_owned_facts st st1 rs head size hG hA
    have hby : bytes ≤ size := by
      have h4 : bytes ≤ st.kBlockSize / 4 := Nat.le_of_not_lt hirr
      have hd4 : st.kBlockSize / 4 ≤ st.kBlockSize := Nat.div_le_self _ _
      rcases hsize with ⟨hh, rfl⟩ | rfl
      · rcases hG.htlb_ok with h0 | hle
        · omega
        · omega
      · omega
    cases aligned with
    | true =>
      rw [if_pos rfl] at heq
      rw [heq]
      constructor
      · rw [show st1.kAlignUnit = st.kAlignUnit from hA.align_eq]
        exact hG.align_pos
      · rw [show st1.hugetlb_size = st.hugetlb_size from hA.htlb_eq,
          show st1.kBlockSize = st.kBlockSize from hA.kbs_eq]
        exact hG.htlb_ok
      · dsimp only
        omega
      · exact hBound
      · exact hDisj
      · refine ⟨⟨head, size⟩, hMem, ?_⟩
        unfold Arena.active Region.Sub Region.hi
        dsimp only
        omega
      · intro r hr
        rcases List.mem_cons.1 hr with h | h
        · subst h
          refine ⟨⟨head, size⟩, hMem, ?_⟩
          unfold Region.Sub Region.hi
          dsimp only
          omega
        · exact hSub r h
      · intro r hr
        rcases List.mem_cons.1 hr with h | h
        · subst h
          exact hb
        · exact hG.ret_pos r h
      · refine List.Pairwise.cons ?_ hG.ret_disj
        intro r hr
        exact Or.inr (hRsHi r hr)
      · intro r hr
        rcases List.mem_cons.1 hr with h | h
        · subst h
          unfold Arena.active Region.Disj Region.hi
          dsimp only
          omega
        · have hrhi := hRsHi r h
          unfold Region.hi at hrhi
          unfold Arena.active Region.Disj Region.hi
          dsimp only
          right
          omega
    | false =>
      rw [if_neg (by decide)] at heq
      rw [heq]
      constructor
      · rw [show st1.kAlignUnit = st.kAlignUnit from hA.align_eq]
        exact hG.align_pos
      · rw [show st1.hugetlb_size = st.hugetlb_size from hA.htlb_eq,
          show st1.kBlockSize = st.kBlockSize from hA.kbs_eq]
        exact hG.htlb_ok
      · dsimp only
        omega
      · exact hBound
      · exact hDisj
      · refine ⟨⟨head, size⟩, hMem, ?_⟩
        unfold Arena.active Region.Sub Region.hi
        dsimp only
        omega
      · intro r hr
        rcases List.mem_cons.1 hr with h | h
        · subst h
          refine ⟨⟨head, size⟩, hMem, ?_⟩
          unfold Region.Sub Region.hi
          dsimp only
          omega
        · exact hSub r h
      · intro r hr
        rcases List.mem_cons.1 hr with h | h
        · subst h
          exact hb
        · exact hG.ret_pos r h
      · refine List.Pairwise.cons ?_ hG.ret_disj
        intro r hr
        refine Or.inr ?_
        have hrhi := hRsHi r hr
        unfold Region.hi at *
        dsimp only
        omega
      · intro r hr
        rcases List.mem_cons.1 hr with h | h
        · subst h
          unfold Arena.active Region.Disj Region.hi
          dsimp only
          left
          omega
        · have hrhi := hRsHi r h
          unfold Region.hi at hrhi
          unfold Arena.active Region.Disj Region.hi
          dsimp only
          right
          omega

/-- Invariant preservation for an acquisition that leaves the active-region
cursors untouched and returns the first `bytes` of the new allocation
(irregular blocks and direct huge-page allocations). -/
theorem Good_acquire_frame (st st1 : Arena) (rs : List Region)
    (head size bytes : Nat) (hG : Good st rs) (hA : Acquired st st1 head size)
    (hb : 0 < bytes) (hbs : bytes ≤ size) :
    Good st1 (⟨head, bytes⟩ :: rs) := by
  obtain ⟨hBound, hDisj, hSub, hRsHi, hMem, hOld, hUb, hActHi⟩ :=
    acquired_owned_facts st st1 rs head size hG hA
  have hacteq : st1.active = st.active := by
    unfold Arena.active
    rw [hA.aligned_eq, hA.remaining_eq]
  constructor
  · rw [hA.align_eq]
    exact hG.align_pos
  · rw [hA.htlb_eq, hA.kbs_eq]
    exact hG.htlb_ok
  · rw [hA.unaligned_eq, hA.aligned_eq, hA.remaining_eq]
    exact hG.cursor
  · exact hBound
  · exact hDisj
  · obtain ⟨o, ho, hsub⟩ := hG.active_sub
    refine ⟨o, hOld o ho, ?_⟩
    rw [hacteq]
    exact hsub
  · intro r hr
    rcases List.mem_cons.1 hr with h | h
    · subst h
      refine ⟨⟨head, size⟩, hMem, Nat.le.refl, ?_⟩
      unfold Region.hi
      dsimp only
      omega
    · exact hSub r h
  · intro r hr
    rcases List.mem_cons.1 hr with h | h
    · subst h
      exact hb
    · exact hG.ret_pos r h
  · refine List.Pairwise.cons ?_ hG.ret_disj
    intro r hr
    refine Or.inr ?_
    have := hRsHi r hr
    unfold Region.hi at *
    dsimp only
    omega
  · intro r hr
    rw [hacteq]
    rcases List.mem_cons.1 hr with h | h
    · subst h
      exact Or.inl hActHi
    · exact hG.ret_active r h

/-- Invariant preservation for `Allocate` (both branches). -/
theorem Good_Allocate (st : Arena) (rs : List Region) (bytes : Nat)
    (hugeOk : Bool) (hb : 0 < bytes) (hG : Good st rs) :
    Good (st.Allocate bytes hugeOk).1
      (⟨(st.Allocate bytes hugeOk).2, bytes⟩ :: rs) := by
  by_cases hlt : bytes < st.alloc_bytes_remaining
  · exact Good_carve_unaligned st rs bytes hugeOk hb hlt hG
  · have heq : st.Allocate bytes hugeOk = st.AllocateFallback bytes false hugeOk := by
      unfold Arena.Allocate
      rw [if_neg hlt]
    rw [heq]
    exact Good_fallback st rs bytes false hugeOk hb hG

/-- Invariant preservation for the low-end aligned carve, for an arbitrary
slop value. -/
theorem Good_carve_aligned (st : Arena) (rs : List Region) (bytes s : Nat)
    (hb : 0 < bytes) (hfit : bytes + s ≤ st.alloc_bytes_remaining)
    (hG : Good st rs) :
    Good { st with
        aligned_alloc_ptr := st.aligned_alloc_ptr + (bytes + s)
        alloc_bytes_remaining := st.alloc_bytes_remaining - (bytes + s) }
      (⟨st.aligned_alloc_ptr + s, bytes⟩ :: rs) := by
  obtain ⟨o, ho, hsub⟩ := hG.active_sub
  have hc := hG.cursor
  have hsubnew : Region.Sub ⟨st.aligned_alloc_ptr + s, bytes⟩ st.active := by
    unfold Region.Sub Region.hi Arena.active
    dsimp only
    omega
  have hsubact : Region.Sub
      ⟨st.aligned_alloc_ptr + (bytes + s),
        st.alloc_bytes_remaining - (bytes + s)⟩ st.active := by
    unfold Region.Sub Region.hi Arena.active
    dsimp only
    omega
  constructor
  · exact hG.align_pos
  · exact hG.htlb_ok
  · dsimp only
    omega
  · exact hG.owned_bound
  · exact hG.owned_disj
  · exact ⟨o, ho, hsubact.trans hsub⟩
  · intro r hr
    rcases List.mem_cons.1 hr with h | h
    · subst h
      exact ⟨o, ho, hsubnew.trans hsub⟩
    · exact hG.ret_sub r h
  · intro r hr
    rcases List.mem_cons.1 hr with h | h
    · subst h
      exact hb
    · exact hG.ret_pos r h
  · refine List.Pairwise.cons ?_ hG.ret_disj
    intro r hr
    exact hsubnew.disj_left (hG.ret_active r hr)
  · intro r hr
    rcases List.mem_cons.1 hr with h | h
    · subst h
      unfold Region.Disj Region.hi Arena.active
      dsimp only
      omega
    · exact hsubact.disj_left (hG.ret_active r h)

/-- Invariant preservation for the aligned-carve tail of `AllocateAligned`
(both branches). -/
theorem Good_alignedCarve (st : Arena) (rs : List Region) (bytes : Nat)
    (hugeOk : Bool) (hb : 0 < bytes) (hG : Good st rs) :
    Good (st.alignedCarve bytes hugeOk).1
      (⟨(st.alignedCarve bytes hugeOk).2, bytes⟩ :: rs) := by
  unfold Arena.alignedCarve
  dsimp only
  split <;> split
  · rename_i hfit
    exact Good_carve_aligned st rs bytes 0 hb hfit hG
  · exact Good_fallback st rs bytes true hugeOk hb hG
  · rename_i hfit
    exact Good_carve_aligned st rs bytes _ hb hfit hG
  · exact Good_fallback st rs bytes true hugeOk hb hG

/-- Invariant preservation for `AllocateAligned` (all three paths). -/
theorem Good_AllocateAligned (st : Arena) (rs : List Region)
    (bytes huge_page_size : Nat) (h1 h2 : Bool) (hb : 0 < bytes)
    (hG : Good st rs) :
    Good (st.AllocateAligned bytes huge_page_size h1 h2).1
      (⟨(st.AllocateAligned bytes huge_page_size h1 h2).2, bytes⟩ :: rs) := by
  unfold Arena.AllocateAligned
  dsimp only
  split
  · rename_i hcond
    by_cases hok : h1 = true ∧
        0 < ((bytes - 1) / huge_page_size + 1) * huge_page_size
    · have hA := acquired_hugePage st
        (((bytes - 1) / huge_page_size + 1) * huge_page_size) h1 hok
      have heq := AllocateFromHugePage_pos st
        (((bytes - 1) / huge_page_size + 1) * huge_page_size) h1 hok
      rw [heq] at hA
      rw [heq]
      dsimp only at hA ⊢
      have hbr : bytes ≤ ((bytes - 1) / huge_page_size + 1) * huge_page_size := by
        have hmul := Nat.lt_mul_div_succ (bytes - 1) hcond.2
        have hcm : huge_page_size * ((bytes - 1) / huge_page_size + 1) =
            ((bytes - 1) / huge_page_size + 1) * huge_page_size :=
          Nat.mul_comm _ _
        omega
      exact Good_acquire_frame st _ rs st.nextFresh _ bytes hG hA hb hbr
    · rw [AllocateFromHugePage_neg st _ h1 hok]
      dsimp only
      exact Good_alignedCarve st rs bytes h2 hb hG
  · exact Good_alignedCarve st rs bytes h2 hb hG

/-- Invariant preservation for every call. -/
theorem Good_call (st : Arena) (rs : List Region) (op : Op)
    (hb : 0 < op.bytes) (hG : Good st rs) :
    Good (st.call op).1 (⟨(st.call op).2, op.bytes⟩ :: rs) := by
  cases op with
  | alloc b hk => exact Good_Allocate st rs b hk hb hG
  | allocAligned b hps h1 h2 => exact Good_AllocateAligned st rs b hps h1 h2 hb hG

/-- The invariant across a whole trace: the final state is related to the
regions of the trace (in reverse order) on top of the previously returned
ones. -/
theorem Good_runTrace (st : Arena) (acc : List Region) (ops : List Op)
    (hG : Good st acc) (hops : ∀ op ∈ ops, 0 < op.bytes) :
    Good (st.runTrace ops).1 ((st.runTrace ops).2.reverse ++ acc) := by
  induction ops generalizing st acc with
  | nil => simpa using hG
  | cons op ops ih =>
    have h1 := Good_call st acc op (hops op (List.mem_cons_self op ops)) hG
    have h2 := ih (st.call op).1 (⟨(st.call op).2, op.bytes⟩ :: acc) h1
      (fun o ho => hops o (List.mem_cons_of_mem op ho))
    unfold Arena.runTrace
    dsimp only
    simpa [List.append_assoc] using h2

/-- The final state of a trace agrees with plain `run`. -/
theorem runTrace_fst (st : Arena) (ops : List Op) :
    (st.runTrace ops).1 = st.run ops := by
  induction ops generalizing st with
  | nil => rfl
  | cons op ops ih =>
    unfold Arena.runTrace Arena.run
    dsimp only
    exact ih (st.call op).1

/-- A nonempty region contained in pairwise-disjoint owned storage has a
unique owner. -/
theorem exists_unique_owner (stf : Arena) (r : Region)
    (hdisj : ∀ o ∈ stf.owned, ∀ p ∈ stf.owned, o ≠ p → o.Disj p)
    (hpos : 0 < r.len) (hsub : ∃ o ∈ stf.owned, r.Sub o) :
    ∃! o, o ∈ stf.owned ∧ r.Sub o := by
  obtain ⟨o, ho, hs⟩ := hsub
  refine ⟨o, ⟨ho, hs⟩, ?_⟩
  rintro p ⟨hp, hps⟩
  by_contra hne
  have hd := hdisj p hp o ho hne
  unfold Region.Sub Region.Disj Region.hi at *
  omega

/-- Claim C1: for every sequence of `Allocate`/`AllocateAligned` calls with
each requested size in `[1, kBlockSize]`, the returned regions (each of the
requested length) are pairwise disjoint, and each lies entirely within
exactly one region of the Arena's owned storage (the inline buffer or one
owned block/huge mapping).  Oracles cover all paths: in-region carves,
regular, irregular and huge-page blocks, and huge-page direct allocations. -/
theorem allocations_disjoint_and_within_owned (align block_size
    huge_page_size inlineBase : Nat) (ops : List Op) (ha : 0 < align)
    (hops : ∀ op ∈ ops, 1 ≤ op.bytes ∧
      op.bytes ≤ (Arena.init align block_size huge_page_size inlineBase).kBlockSize) :
    ((Arena.init align block_size huge_page_size inlineBase).runTrace
        ops).2.Pairwise Region.Disj ∧
    ∀ r ∈ ((Arena.init align block_size huge_page_size inlineBase).runTrace ops).2,
      ∃! o, o ∈ ((Arena.init align block_size huge_page_size
        inlineBase).runTrace ops).1.owned ∧ Region.Sub r o := by
  have hG := Good_runTrace (Arena.init align block_size huge_page_size inlineBase)
    [] ops (Good_init align block_size huge_page_size inlineBase ha)
    (fun op ho => (hops op ho).1)
  rw [List.append_nil] at hG
  constructor
  · have hrev := hG.ret_disj
    rw [List.pairwise_reverse] at hrev
    exact hrev.imp (fun h => h.symm)
  · intro r hr
    have hr2 : r ∈ ((Arena.init align block_size huge_page_size
        inlineBase).runTrace ops).2.reverse := List.mem_reverse.2 hr
    exact exists_unique_owner _ r hG.owned_disj (hG.ret_pos r hr2)
      (hG.ret_sub r hr2)

/-- Witness for C1: two small calls on the fresh default Arena. -/
theorem allocations_disjoint_and_within_owned_witness :
    ((Arena.init 16 4096 0 0).runTrace
        [Op.alloc 100 false, Op.allocAligned 100 0 false false]).2.Pairwise
      Region.Disj ∧
    ∀ r ∈ ((Arena.init 16 4096 0 0).runTrace
        [Op.alloc 100 false, Op.allocAligned 100 0 false false]).2,
      ∃! o, o ∈ ((Arena.init 16 4096 0 0).runTrace
        [Op.alloc 100 false, Op.allocAligned 100 0 false false]).1.owned ∧
        Region.Sub r o :=
  allocations_disjoint_and_within_owned 16 4096 0 0
    [Op.alloc 100 false, Op.allocAligned 100 0 false false]
    (by decide) (by decide)

/-- Claim C5: after Arena construction and after every sequence of
`Allocate`/`AllocateAligned` calls (all paths reachable through the oracles),
the state satisfies `aligned_alloc_ptr_ ≤ unaligned_alloc_ptr_` and
`unaligned_alloc_ptr_ - aligned_alloc_ptr_ == alloc_bytes_remaining_` for the
currently active region. -/
theorem active_region_cursor_identity (align block_size huge_page_size
    inlineBase : Nat) (ops : List Op) (ha : 0 < align)
    (hops : ∀ op ∈ ops, 0 < op.bytes) :
    ((Arena.init align block_size huge_page_size inlineBase).run
        ops).aligned_alloc_ptr ≤
      ((Arena.init align block_size huge_page_size inlineBase).run
        ops).unaligned_alloc_ptr ∧
    ((Arena.init align block_size huge_page_size inlineBase).run
        ops).unaligned_alloc_ptr -
      ((Arena.init align block_size huge_page_size inlineBase).run
        ops).aligned_alloc_ptr =
    ((Arena.init align block_size huge_page_size inlineBase).run
        ops).alloc_bytes_remaining := by
  have hG := Good_runTrace (Arena.init align block_size huge_page_size inlineBase)
    [] ops (Good_init align block_size huge_page_size inlineBase ha) hops
  rw [runTrace_fst] at hG
  have hc := hG.cursor
  omega

/-- Witness for C5: a trace exercising carve, aligned carve and irregular
fallback on the default Arena. -/
theorem active_region_cursor_identity_witness :
    ((Arena.init 16 4096 0 0).run
        [Op.alloc 100 false, Op.allocAligned 50 0 false false,
          Op.alloc 5000 false]).aligned_alloc_ptr ≤
      ((Arena.init 16 4096 0 0).run
        [Op.alloc 100 false, Op.allocAligned 50 0 false false,
          Op.alloc 5000 false]).unaligned_alloc_ptr ∧
    ((Arena.init 16 4096 0 0).run
        [Op.alloc 100 false, Op.allocAligned 50 0 false false,
          Op.alloc 5000 false]).unaligned_alloc_ptr -
      ((Arena.init 16 4096 0 0).run
        [Op.alloc 100 false, Op.allocAligned 50 0 false false,
          Op.alloc 5000 false]).aligned_alloc_ptr =
    ((Arena.init 16 4096 0 0).run
        [Op.alloc 100 false, Op.allocAligned 50 0 false false,
          Op.alloc 5000 false]).alloc_bytes_remaining :=
  active_region_cursor_identity 16 4096 0 0
    [Op.alloc 100 false, Op.allocAligned 50 0 false false, Op.alloc 5000 false]
    (by decide) (by decide)

/-! ### Pointer alignment -/

/-- A multiple of `a` has zero residue. -/
theorem dvd_mod_zero {a n : Nat} (h : a ∣ n) : n % a = 0 := by
  obtain ⟨c, rfl⟩ := h
  exact Nat.mul_mod_right a c

/-- The aligned fallback always returns the head of the newly acquired block,
which sits at the current fresh address. -/
theorem AllocateFallback_aligned_returns_fresh (st : Arena) (bytes : Nat)
    (hugeOk : Bool) :
    (st.AllocateFallback bytes true hugeOk).2 = st.nextFresh := by
  by_cases hirr : st.kBlockSize / 4 < bytes
  · rw [AllocateFallback_irregular st bytes true hugeOk hirr]
  · obtain ⟨st1, head, size, hs, hA, heq⟩ :=
      AllocateFallback_small st bytes true hugeOk hirr
    rw [heq, if_pos rfl]
    exact hA.head_eq

/-- The aligned-carve tail returns a `kAlignUnit`-aligned pointer, provided
`kAlignUnit` is a power of two (the template static assert) and the fresh
address oracle is aligned (`operator new`/`mmap` alignment). -/
theorem alignedCarve_alignment (st : Arena) (bytes : Nat) (hugeOk : Bool)
    (k : Nat) (hk : st.kAlignUnit = 2 ^ k)
    (hfresh : st.kAlignUnit ∣ st.nextFresh) :
    (st.alignedCarve bytes hugeOk).2 % st.kAlignUnit = 0 := by
  have ha : 0 < st.kAlignUnit := by
    rw [hk]
    positivity
  have hmask : st.aligned_alloc_ptr &&& (st.kAlignUnit - 1) =
      st.aligned_alloc_ptr % st.kAlignUnit := by
    rw [hk]
    exact Nat.and_pow_two_sub_one_eq_mod _ k
  unfold Arena.alignedCarve
  dsimp only
  rw [hmask]
  by_cases hm : st.aligned_alloc_ptr % st.kAlignUnit = 0
  · rw [if_pos hm]
    split
    · dsimp only
      simpa using hm
    · rw [AllocateFallback_aligned_returns_fresh]
      exact dvd_mod_zero hfresh
  · rw [if_neg hm]
    split
    · dsimp only
      have hd := Nat.div_add_mod st.aligned_alloc_ptr st.kAlignUnit
      have hlt := Nat.mod_lt st.aligned_alloc_ptr ha
      have he : st.aligned_alloc_ptr +
          (st.kAlignUnit - st.aligned_alloc_ptr % st.kAlignUnit) =
          st.kAlignUnit * (st.aligned_alloc_ptr / st.kAlignUnit) +
            st.kAlignUnit := by
        omega
      rw [he, ← Nat.mul_succ]
      exact Nat.mul_mod_right _ _
    · rw [AllocateFallback_aligned_returns_fresh]
      exact dvd_mod_zero hfresh

/-- Every path of `Arena::AllocateAligned` returns a `kAlignUnit`-aligned
pointer. -/
theorem arena_allocateAligned_aligned (st : Arena) (bytes huge_page_size : Nat)
    (o1 o2 : Bool) (k : Nat) (hk : st.kAlignUnit = 2 ^ k)
    (hfresh : st.kAlignUnit ∣ st.nextFresh) :
    (st.AllocateAligned bytes huge_page_size o1 o2).2 % st.kAlignUnit = 0 := by
  unfold Arena.AllocateAligned
  dsimp only
  split
  · by_cases hok : o1 = true ∧
        0 < ((bytes - 1) / huge_page_size + 1) * huge_page_size
    · rw [AllocateFromHugePage_pos st _ o1 hok]
      dsimp only
      exact dvd_mod_zero hfresh
    · rw [AllocateFromHugePage_neg st _ o1 hok]
      dsimp only
      exact alignedCarve_alignment st bytes o2 k hk hfresh
  · exact alignedCarve_alignment st bytes o2 k hk hfresh

/-- The request size rounded up by `((bytes - 1) | (sizeof(void*) - 1)) + 1`
is a multiple of `sizeof(void*)`. -/
theorem roundedUp_mod (b : Nat) :
    (((b - 1) ||| (ptrSize - 1)) + 1) % ptrSize = 0 := by
  show (((b - 1) ||| 7) + 1) % 8 = 0
  have hm : ∀ x : Nat, x &&& 7 = x % 8 := by
    intro x
    have h := Nat.and_pow_two_sub_one_eq_mod x 3
    simpa using h
  have h7 : ((b - 1) ||| 7) % 8 = 7 := by
    rw [← hm ((b - 1) ||| 7)]
    have hdist : ((b - 1) ||| 7) &&& 7 = ((b - 1) &&& 7) ||| (7 &&& 7) :=
      Nat.and_distrib_right _ _ _
    rw [hdist, hm]
    have hlt : (b - 1) % 8 < 8 := Nat.mod_lt _ (by decide)
    have hsmall : ∀ x : Fin 8, (x : Nat) ||| 7 = 7 := by decide
    have h77 : (7 : Nat) &&& 7 = 7 := rfl
    rw [h77]
    exact hsmall ⟨(b - 1) % 8, hlt⟩
  rw [Nat.add_mod, h7]

/-- Every path of `ConcurrentArena::AllocateAligned` returns a
`sizeof(void*)`-aligned pointer, under the shard invariant that every
`free_begin_` is `sizeof(void*)`-aligned (which all shard updates preserve)
and `kAlignUnit = 2^k` with `k ≥ 3` (so arena pointers are at least
pointer-aligned). -/
theorem concurrent_allocateAligned_ptr_aligned (ca : CArena)
    (bytes huge_page_size : Nat) (env : Env) (k : Nat)
    (hk : ca.arena.kAlignUnit = 2 ^ k) (hk3 : 3 ≤ k)
    (hfresh : ca.arena.kAlignUnit ∣ ca.arena.nextFresh)
    (hsh : ∀ s ∈ ca.shards, s.free_begin % ptrSize = 0) :
    (ca.AllocateAligned bytes huge_page_size env).2 % ptrSize = 0 := by
  have hdvd8 : (8 : Nat) ∣ ca.arena.kAlignUnit := by
    rw [hk, show (8 : Nat) = 2 ^ 3 by decide]
    exact Nat.pow_dvd_pow 2 hk3
  have harena : ∀ (b hp : Nat) (u1 u2 : Bool),
      (ca.arena.AllocateAligned b hp u1 u2).2 % 8 = 0 := by
    intro b hp u1 u2
    have h0 := arena_allocateAligned_aligned ca.arena b hp u1 u2 k hk hfresh
    exact dvd_mod_zero (dvd_trans hdvd8 (Nat.dvd_of_mod_eq_zero h0))
  have hget : ∀ i, (ca.shards.getD i default).free_begin % 8 = 0 := by
    intro i
    by_cases hi : i < ca.shards.length
    · refine hsh _ ?_
      rw [List.getD_eq_getElem ca.shards default hi]
      exact List.getElem_mem hi
    · rw [List.getD_eq_default ca.shards default (Nat.le_of_not_lt hi)]
      rfl
  have hr8 := roundedUp_mod bytes
  unfold CArena.AllocateAligned CArena.AllocateImpl CArena.Fixup
  dsimp only
  split
  · exact harena _ _ _ _
  · split
    · split
      · exact harena _ _ _ _
      · unfold CArena.shardCarve
        dsimp only
        rw [if_pos hr8]
        dsimp only
        by_cases hi : ca.shardIndex env < ca.shards.length
        · rw [List.getD_eq_getElem _ default
            (by simpa [List.length_set] using hi)]
          simp only [List.getElem_set, if_pos rfl]
          exact harena _ _ _ _
        · rw [List.getD_eq_default _ default
            (by simpa [List.length_set] using Nat.le_of_not_lt hi)]
          rfl
    · unfold CArena.shardCarve
      dsimp only
      rw [if_pos hr8]
      exact hget _

/-- Concrete ConcurrentArena fixture: default construction with
`kAlignUnit = 16`, block size 4096, 8 shards. -/
def cexCA0 : CArena := CArena.init 16 4096 0 0 8

/-- Environment of a call on the unassigned shard 0 with a free arena lock. -/
def cexEnv0 : Env := ⟨0, true, true, 0, false, false⟩

/-- Environment of a call whose thread-local cpu id is 1 (shard path). -/
def cexEnv1 : Env := ⟨1, true, true, 0, false, false⟩

/-- Fixture after one irregular allocation: the Arena owns a block, so
`IsInInlineBlock()` is false and shard reloads are exercised. -/
def cexCA1 : CArena := (cexCA0.Allocate 2048 cexEnv0).1

/-- Counterexample to claim C3 as stated: on a ConcurrentArena with
`kAlignUnit = 16`, after one irregular allocation and one shard-path
`AllocateAligned(8)` (which installs a 512-byte shard run and carves 8 bytes
from its low end), the next `AllocateAligned(8)` on the same shard returns an
address congruent to 8 (not 0) modulo `kAlignUnit`: the shard path rounds
requests only to `sizeof(void*)` and advances `free_begin_` by that amount. -/
theorem concurrent_shard_alloc_misaligned :
    cexCA0.arena.kAlignUnit = 16 ∧
    (((cexCA1.AllocateAligned 8 0 cexEnv1).1.AllocateAligned 8 0
        cexEnv1).2) % 16 = 8 := by
  decide

/-- Claim C3 as amended: `Arena::AllocateAligned` returns a
`kAlignUnit`-aligned pointer on every path (active-region carve, fallback
block, huge page), given the static assert `kAlignUnit = 2^k` and the
alignment of fresh system allocations; `ConcurrentArena::AllocateAligned`
guarantees only `sizeof(void*)`-alignment (its shard path can return
addresses that are not 0 modulo `kAlignUnit`), under the shard invariant that
every cached `free_begin_` is pointer-aligned. -/
theorem allocateAligned_pointer_alignment :
    (∀ (st : Arena) (bytes huge_page_size : Nat) (o1 o2 : Bool) (k : Nat),
      st.kAlignUnit = 2 ^ k → st.kAlignUnit ∣ st.nextFresh →
      (st.AllocateAligned bytes huge_page_size o1 o2).2 % st.kAlignUnit = 0) ∧
    (∀ (ca : CArena) (bytes huge_page_size : Nat) (env : Env) (k : Nat),
      ca.arena.kAlignUnit = 2 ^ k → 3 ≤ k →
      ca.arena.kAlignUnit ∣ ca.arena.nextFresh →
      (∀ s ∈ ca.shards, s.free_begin % ptrSize = 0) →
      (ca.AllocateAligned bytes huge_page_size env).2 % ptrSize = 0) :=
  ⟨fun st b hp o1 o2 k hk hf =>
      arena_allocateAligned_aligned st b hp o1 o2 k hk hf,
    fun ca b hp env k hk hk3 hf hsh =>
      concurrent_allocateAligned_ptr_aligned ca b hp env k hk hk3 hf hsh⟩

/-- Witness for the amended C3 at concrete states satisfying the alignment
hypotheses. -/
theorem allocateAligned_pointer_alignment_witness :
    ((Arena.init 16 4096 0 0).AllocateAligned 100 0 false false).2 %
      (Arena.init 16 4096 0 0).kAlignUnit = 0 ∧
    (cexCA0.AllocateAligned 8 0 cexEnv1).2 % ptrSize = 0 :=
  ⟨allocateAligned_pointer_alignment.1 (Arena.init 16 4096 0 0) 100 0
      false false 4 (by decide) (by decide),
    allocateAligned_pointer_alignment.2 cexCA0 8 0 cexEnv1 4 (by decide)
      (by decide) (by decide) (by decide)⟩

/-- Claim C8: on the shard path with insufficient cached bytes, the reload
policy is: (a) if the Arena still serves from its inline buffer and its free
bytes cover the request, allocate directly from the Arena with no shard
refill; otherwise (b) refill the shard with exactly the Arena's free-byte
count when that count lies in `[shard_block_size/2, 2*shard_block_size)`,
else with exactly `shard_block_size`, by one aligned Arena allocation of that
many bytes installed as the shard's new run. -/
theorem shard_reload_policy (ca : CArena) (bytes : Nat) (force_arena : Bool)
    (env : Env) (func : Arena → Arena × Nat)
    (hnd : ¬ (ca.shard_block_size / 4 < bytes ∨ force_arena = true ∨
      (env.cpu = 0 ∧ (ca.shards.getD 0 default).allocated_and_unused = 0 ∧
        env.arenaTryLockOk = true)))
    (hins : (ca.shards.getD (ca.shardIndex env)
      default).allocated_and_unused < bytes)
    (hsync : ca.arena_allocated_and_unused = ca.arena.AllocatedAndUnused)
    (hidx : ca.shardIndex env < ca.shards.length) :
    (bytes ≤ ca.arena.AllocatedAndUnused ∧ ca.arena.IsInInlineBlock = true →
      (ca.AllocateImpl bytes force_arena env func).1.shards = ca.shards ∧
      (ca.AllocateImpl bytes force_arena env func).1.arena = (func ca.arena).1 ∧
      (ca.AllocateImpl bytes force_arena env func).2 = (func ca.arena).2) ∧
    (¬ (bytes ≤ ca.arena.AllocatedAndUnused ∧
        ca.arena.IsInInlineBlock = true) →
      ((ca.AllocateImpl bytes force_arena env func).1.shards.getD
          (ca.shardIndex env) default).allocated_and_unused =
        (if ca.shard_block_size / 2 ≤ ca.arena.AllocatedAndUnused ∧
            ca.arena.AllocatedAndUnused < ca.shard_block_size * 2
          then ca.arena.AllocatedAndUnused
          else ca.shard_block_size) - bytes ∧
      (ca.AllocateImpl bytes force_arena env func).1.arena =
        (ca.arena.AllocateAligned
          (if ca.shard_block_size / 2 ≤ ca.arena.AllocatedAndUnused ∧
              ca.arena.AllocatedAndUnused < ca.shard_block_size * 2
            then ca.arena.AllocatedAndUnused
            else ca.shard_block_size)
          0 env.hugeOk1 env.hugeOk2).1) := by
  constructor
  · intro h
    unfold CArena.AllocateImpl CArena.Fixup
    dsimp only
    rw [if_neg hnd, hsync, if_pos hins, if_pos h]
    exact ⟨rfl, rfl, rfl⟩
  · intro h
    unfold CArena.AllocateImpl CArena.Fixup CArena.shardCarve
    dsimp only
    rw [if_neg hnd, hsync, if_pos hins, if_neg h]
    constructor
    · split <;>
        (rw [List.getD_eq_getElem _ default
            (by simpa [List.length_set] using hidx)] ;
          simp [List.getElem_set])
    · split <;> rfl

/-- Witness for C8 at the concrete fixture `cexCA1` (Arena no longer inline),
taking the refill branch with `AllocateImpl(8)` on shard 1. -/
theorem shard_reload_policy_witness :
    (8 ≤ cexCA1.arena.AllocatedAndUnused ∧ cexCA1.arena.IsInInlineBlock = true →
      (cexCA1.AllocateImpl 8 false cexEnv1
        (fun a => a.Allocate 8 false)).1.shards = cexCA1.shards ∧
      (cexCA1.AllocateImpl 8 false cexEnv1
        (fun a => a.Allocate 8 false)).1.arena =
        (cexCA1.arena.Allocate 8 false).1 ∧
      (cexCA1.AllocateImpl 8 false cexEnv1
        (fun a => a.Allocate 8 false)).2 =
        (cexCA1.arena.Allocate 8 false).2) ∧
    (¬ (8 ≤ cexCA1.arena.AllocatedAndUnused ∧
        cexCA1.arena.IsInInlineBlock = true) →
      ((cexCA1.AllocateImpl 8 false cexEnv1
          (fun a => a.Allocate 8 false)).1.shards.getD
          (cexCA1.shardIndex cexEnv1) default).allocated_and_unused =
        (if cexCA1.shard_block_size / 2 ≤ cexCA1.arena.AllocatedAndUnused ∧
            cexCA1.arena.AllocatedAndUnused < cexCA1.shard_block_size * 2
          then cexCA1.arena.AllocatedAndUnused
          else cexCA1.shard_block_size) - 8 ∧
      (cexCA1.AllocateImpl 8 false cexEnv1
          (fun a => a.Allocate 8 false)).1.arena =
        (cexCA1.arena.AllocateAligned
          (if cexCA1.shard_block_size / 2 ≤ cexCA1.arena.AllocatedAndUnused ∧
              cexCA1.arena.AllocatedAndUnused < cexCA1.shard_block_size * 2
            then cexCA1.arena.AllocatedAndUnused
            else cexCA1.shard_block_size)
          0 cexEnv1.hugeOk1 cexEnv1.hugeOk2).1) :=
  shard_reload_policy cexCA1 8 false cexEnv1 (fun a => a.Allocate 8 false)
    (by decide) (by decide) (by decide) (by decide)

end ArenaSpec
